import Mathlib

/-!
Shallow embedding of the analysis-job orchestrator of the repository
(`supabase/functions/analyze-content/index.ts`), together with proofs of
the specification's claims about it.

Numbers produced by `Math.random()` and arithmetic on confidences are
modelled over `ℚ`; JavaScript `Math.round` on nonnegative values is
`round` (round half towards positive infinity), `Math.floor` is `Int.floor`.
The ambient inputs of one task invocation (the four `Math.random()` draws
and the wall clock read by `new Date()`) are gathered in a `TaskEnv`
record, so the probabilistic function becomes a pure function of its
environment.
-/

/-- Descriptor of one detection model, from the `AI_MODELS` entries in
`index.ts` (fields `name`, `version`, `specialty`). -/
structure ModelInfo where
  name : String
  version : String
  specialty : String
deriving Repr, DecidableEq

/-- The static model registry `AI_MODELS` of `index.ts`. -/
def AI_MODELS : List ModelInfo :=
  [ { name := "DeepFake Detector Pro", version := "v2.1", specialty := "deepfake" },
    { name := "SynthImage Analyzer", version := "v1.8", specialty := "ai_generated" },
    { name := "MediaAuth Validator", version := "v3.0", specialty := "authentic" },
    { name := "Neural Pattern Recognition", version := "v2.5", specialty := "ai_generated" } ]

/-- Ambient inputs of one `simulateModelAnalysis` invocation: the four
`Math.random()` calls (each in `[0,1)`) and the ISO timestamp read by
`new Date().toISOString()`. -/
structure TaskEnv where
  confRand : ℚ
  genRand : ℚ
  timeRand : ℚ
  artifactRand : ℚ
  nowIso : String
deriving Repr, DecidableEq

/-- The `metadata` record built by `simulateModelAnalysis`: always
`fileType`, `algorithmUsed`, `analysisTimestamp`; `detectedArtifacts`
only on the AI-generated branch, `authenticityMarkers` only on the
authentic branch. -/
structure Metadata where
  fileType : String
  algorithmUsed : String
  analysisTimestamp : String
  detectedArtifacts : Option (List String)
  authenticityMarkers : Option (List String)
deriving Repr, DecidableEq

/-- The `ModelResult` interface of `index.ts`. -/
structure ModelResult where
  modelName : String
  modelVersion : String
  isAiGenerated : Bool
  confidenceScore : ℚ
  detectionType : String
  processingTime : ℤ
  metadata : Metadata
deriving Repr, DecidableEq

/-- JavaScript `Math.round(x * 100) / 100` (round to two decimal places),
for the nonnegative values arising here. -/
def round2 (q : ℚ) : ℚ := (round (q * 100) : ℚ) / 100

/-- `simulateModelAnalysis(modelInfo, fileType)` from `index.ts`, with the
ambient `Math.random()` draws and clock passed explicitly as `env`. -/
def simulateModelAnalysis (modelInfo : ModelInfo) (fileType : String)
    (env : TaskEnv) : ModelResult :=
  let randomConfidence : ℚ := env.confRand * 40 + 60
  let isAiGenerated : Bool := decide ((1 : ℚ) / 2 < env.genRand)
  let detectionType : String :=
    if isAiGenerated then
      if modelInfo.specialty = "deepfake" then "deepfake" else "ai_generated"
    else "authentic"
  let processingTime : ℚ := env.timeRand * 2000 + 500
  let artifactCount : ℕ := (⌊env.artifactRand * 3⌋).toNat + 1
  let metadata : Metadata :=
    { fileType := fileType
      algorithmUsed := modelInfo.specialty
      analysisTimestamp := env.nowIso
      detectedArtifacts :=
        if isAiGenerated then
          some (List.take artifactCount
            [ "Inconsistent lighting patterns",
              "Unnatural facial symmetry",
              "Digital artifacts in high-frequency areas" ])
        else none
      authenticityMarkers :=
        if isAiGenerated then none
        else
          some (List.take artifactCount
            [ "Natural noise patterns",
              "Consistent EXIF data",
              "Organic compression artifacts" ]) }
  { modelName := modelInfo.name
    modelVersion := modelInfo.version
    isAiGenerated := isAiGenerated
    confidenceScore := round2 randomConfidence
    detectionType := detectionType
    processingTime := round processingTime
    metadata := metadata }

/-- The summary object returned in the 200 response of `index.ts`. -/
structure Summary where
  totalModels : ℕ
  aiGeneratedCount : ℕ
  authenticCount : ℕ
  averageConfidence : ℚ
  overallVerdict : String
deriving Repr, DecidableEq

/-- `results.filter((r) => r.isAiGenerated).length` from `index.ts`. -/
def aiGeneratedCount (results : List ModelResult) : ℕ :=
  (results.filter (fun r => r.isAiGenerated)).length

/-- `results.reduce((sum, r) => sum + r.confidenceScore, 0) / results.length`
from `index.ts` (JavaScript number division modelled over `ℚ`). -/
def averageConfidence (results : List ModelResult) : ℚ :=
  (results.map (fun r => r.confidenceScore)).sum / results.length

/-- The summary computation of the handler in `index.ts` (lines 151-168):
counts, rounded average confidence, and the overall verdict decided by
`aiGeneratedCount > results.length / 2`. -/
def computeSummary (results : List ModelResult) : Summary :=
  { totalModels := results.length
    aiGeneratedCount := aiGeneratedCount results
    authenticCount := results.length - aiGeneratedCount results
    averageConfidence := round2 (averageConfidence results)
    overallVerdict :=
      if (aiGeneratedCount results : ℚ) > (results.length : ℚ) / 2 then
        "Likely AI Generated"
      else "Likely Authentic" }

/-- The parsed JSON body of an analysis request (`AnalysisRequest` in
`index.ts`); `none` models an absent field. -/
structure RequestBody where
  analysisId : Option String
  fileUrl : Option String
  fileType : Option String
deriving Repr, DecidableEq

/-- JavaScript truthiness of an optional string field: `undefined` and the
empty string are falsy (the `!analysisId || !fileUrl || !fileType` test). -/
def truthy : Option String → Bool
  | none => false
  | some s => s ≠ ""

/-- The persisted row of the `analyses` table that the handler touches:
`status` and `completed_at` (other columns are immutable metadata set by
the client at creation). -/
structure JobRow where
  status : String
  completedAt : Option String
deriving Repr, DecidableEq

/-- A persisted row of the `analysis_results` table, with the columns the
handler's insert fills. -/
structure ResultRow where
  analysisId : String
  modelName : String
  modelVersion : String
  isAiGenerated : Bool
  confidenceScore : ℚ
  detectionType : String
  metadata : Metadata
deriving Repr, DecidableEq

/-- The durable state for one job: its `analyses` row and its
`analysis_results` rows in insertion order. -/
structure Store where
  job : JobRow
  results : List ResultRow
deriving Repr, DecidableEq

/-- The row inserted into `analysis_results` for one model result
(lines 130-138 of `index.ts`). -/
def toResultRow (analysisId : String) (r : ModelResult) : ResultRow :=
  { analysisId := analysisId
    modelName := r.modelName
    modelVersion := r.modelVersion
    isAiGenerated := r.isAiGenerated
    confidenceScore := r.confidenceScore
    detectionType := r.detectionType
    metadata := r.metadata }

/-- The HTTP response of the handler: 400 with an error message, 200 with
the summary and results, or 500 from the catch block. -/
inductive HandlerResponse where
  | badRequest (error : String)
  | ok (analysisId : String) (summary : Summary) (results : List ModelResult)
  | serverError (error : String)
deriving Repr, DecidableEq

/-- The `for (const model of AI_MODELS)` loop of `index.ts`: for each model
it runs `simulateModelAnalysis` with that iteration's ambient inputs
(`envs idx`), pushes the result, and persists a row. `errAt = some k`
injects a thrown error during iteration `k`'s task invocation, before its
row is persisted; the loop body then aborts into the catch block (`true`
in the fourth component). Returns the in-memory `results` array, the
final store, the list of store snapshots after each persisted insert, and
the error flag. -/
def runTasks (analysisId fileType : String) (envs : ℕ → TaskEnv)
    (errAt : Option ℕ) :
    List ModelInfo → ℕ → List ModelResult → Store →
    List ModelResult × Store × List Store × Bool
  | [], _, acc, store => (acc, store, [], false)
  | m :: rest, idx, acc, store =>
    if errAt = some idx then (acc, store, [], true)
    else
      let r := simulateModelAnalysis m fileType (envs idx)
      let store1 : Store :=
        { store with results := store.results ++ [toResultRow analysisId r] }
      match runTasks analysisId fileType envs errAt rest (idx + 1)
          (acc ++ [r]) store1 with
      | (acc2, store2, snaps, err) => (acc2, store2, store1 :: snaps, err)

/-- The request handler of `index.ts` (the `Deno.serve` body for a POST
with a parsed JSON body), acting on the job's durable state. Returns the
response, the final store, and the trace of store states after each
persisted write, in program order: the `processing` update, each result
insert, and (on success) the `completed` update. -/
def handleRequest (req : RequestBody) (envs : ℕ → TaskEnv) (errAt : Option ℕ)
    (completedIso : String) (store : Store) :
    HandlerResponse × Store × List Store :=
  if !(truthy req.analysisId && truthy req.fileUrl && truthy req.fileType) then
    (.badRequest "Missing required fields", store, [])
  else
    let analysisId := req.analysisId.getD ""
    let fileType := req.fileType.getD ""
    let store1 : Store := { store with job := { store.job with status := "processing" } }
    match runTasks analysisId fileType envs errAt AI_MODELS 0 [] store1 with
    | (results, store2, snaps, err) =>
      if err then (.serverError "Analysis failed", store2, store1 :: snaps)
      else
        let store3 : Store :=
          { store2 with job := { status := "completed", completedAt := some completedIso } }
        (.ok analysisId (computeSummary results) results, store3,
          store1 :: (snaps ++ [store3]))

/-- The job's durable state as the client's upload creates it, before the
handler runs: `status = "pending"` (insert in the upload component),
`completed_at` null (schema default), no result rows. -/
def initStore : Store :=
  { job := { status := "pending", completedAt := none }, results := [] }

/-- A fixed ambient environment for concrete executions: confidence draw
one half, AI-generated draw below the threshold (result not flagged). -/
def defaultEnv : TaskEnv :=
  { confRand := 1/2, genRand := 0, timeRand := 0, artifactRand := 0, nowIso := "t0" }

/-- An ambient environment whose AI-generated draw exceeds one half, so the
task flags the content. -/
def flaggedEnv : TaskEnv :=
  { confRand := 1/2, genRand := 1, timeRand := 0, artifactRand := 0, nowIso := "t0" }

/-- One concrete task result with the given flag verdict, produced by the
reference task runner on the first registry model. -/
def mkResult (flag : Bool) : ModelResult :=
  simulateModelAnalysis (AI_MODELS.get ⟨0, by decide⟩) "image"
    (if flag then flaggedEnv else defaultEnv)

/-- Four concrete task results of which exactly two are flagged. -/
def tieResults : List ModelResult :=
  [mkResult true, mkResult true, mkResult false, mkResult false]

/-- A request body with all three required fields present. -/
def validReq : RequestBody :=
  { analysisId := some "analysis-1", fileUrl := some "file-url", fileType := some "image" }

/-- A predicate holding of every store state in a trace. -/
def allStores (p : Store → Prop) : List Store → Prop
  | [] => True
  | s :: rest => p s ∧ allStores p rest

/-- The completedAt/status invariant of the data model: completedAt is
set exactly when the status is terminal (completed or failed). -/
def completedAtInv (s : Store) : Prop :=
  s.job.completedAt.isSome = true ↔ (s.job.status = "completed" ∨ s.job.status = "failed")

theorem allStores_iff (p : Store → Prop) :
    ∀ l : List Store, allStores p l ↔ ∀ s ∈ l, p s := by
  intro l
  induction l with
  | nil => simp [allStores]
  | cons s rest ih => simp [allStores, ih]

theorem runTasks_job (aid ft : String) (envs : ℕ → TaskEnv) (errAt : Option ℕ) :
    ∀ (models : List ModelInfo) (idx : ℕ) (acc : List ModelResult) (store : Store),
      (runTasks aid ft envs errAt models idx acc store).2.1.job = store.job ∧
      ∀ s ∈ (runTasks aid ft envs errAt models idx acc store).2.2.1, s.job = store.job := by
  intro models
  induction models with
  | nil => intro idx acc store; simp [runTasks]
  | cons m rest ih =>
    intro idx acc store
    by_cases h : errAt = some idx
    · simp [runTasks, h]
    · have ihh := ih (idx + 1) (acc ++ [simulateModelAnalysis m ft (envs idx)])
        { store with results := store.results ++ [toResultRow aid (simulateModelAnalysis m ft (envs idx))] }
      rcases hr : runTasks aid ft envs errAt rest (idx + 1)
          (acc ++ [simulateModelAnalysis m ft (envs idx)])
          { store with results := store.results ++ [toResultRow aid (simulateModelAnalysis m ft (envs idx))] }
        with ⟨acc2, store2, snaps, err⟩
      rw [hr] at ihh
      simp only [runTasks, h, if_neg, ite_false, hr] at *
      refine ⟨ihh.1, ?_⟩
      intro s hs
      rcases List.mem_cons.mp hs with hs | hs
      · simp [hs]
      · exact ihh.2 s hs

theorem runTasks_len (aid ft : String) (envs : ℕ → TaskEnv) (errAt : Option ℕ) :
    ∀ (models : List ModelInfo) (idx : ℕ) (acc : List ModelResult) (store : Store),
      (runTasks aid ft envs errAt models idx acc store).2.1.results.length
        = store.results.length + (runTasks aid ft envs errAt models idx acc store).2.2.1.length ∧
      (runTasks aid ft envs errAt models idx acc store).2.2.1.length ≤ models.length := by
  intro models
  induction models with
  | nil => intro idx acc store; simp [runTasks]
  | cons m rest ih =>
    intro idx acc store
    by_cases h : errAt = some idx
    · simp [runTasks, h]
    · have ihh := ih (idx + 1) (acc ++ [simulateModelAnalysis m ft (envs idx)])
        { store with results := store.results ++ [toResultRow aid (simulateModelAnalysis m ft (envs idx))] }
      rcases hr : runTasks aid ft envs errAt rest (idx + 1)
          (acc ++ [simulateModelAnalysis m ft (envs idx)])
          { store with results := store.results ++ [toResultRow aid (simulateModelAnalysis m ft (envs idx))] }
        with ⟨acc2, store2, snaps, err⟩
      rw [hr] at ihh
      simp only [List.length_append, List.length_singleton] at ihh
      simp only [runTasks, h, ite_false, hr, List.length_cons]
      omega

theorem runTasks_snaps_get (aid ft : String) (envs : ℕ → TaskEnv) (errAt : Option ℕ) :
    ∀ (models : List ModelInfo) (idx : ℕ) (acc : List ModelResult) (store : Store)
      (j : ℕ) (s : Store),
      (runTasks aid ft envs errAt models idx acc store).2.2.1.get? j = some s →
      s.results.length = store.results.length + j + 1 := by
  intro models
  induction models with
  | nil => intro idx acc store j s hj; simp [runTasks] at hj
  | cons m rest ih =>
    intro idx acc store j s hj
    by_cases h : errAt = some idx
    · simp [runTasks, h] at hj
    · rcases hr : runTasks aid ft envs errAt rest (idx + 1)
          (acc ++ [simulateModelAnalysis m ft (envs idx)])
          { store with results := store.results ++ [toResultRow aid (simulateModelAnalysis m ft (envs idx))] }
        with ⟨acc2, store2, snaps, err⟩
      simp only [runTasks, h, ite_false, hr] at hj
      match j with
      | 0 =>
        simp only [List.get?] at hj
        cases hj
        simp
      | j + 1 =>
        simp only [List.get?] at hj
        have := ih (idx + 1) (acc ++ [simulateModelAnalysis m ft (envs idx)])
          { store with results := store.results ++ [toResultRow aid (simulateModelAnalysis m ft (envs idx))] }
          j s (by rw [hr]; exact hj)
        simp at this
        omega

theorem runTasks_none (aid ft : String) (envs : ℕ → TaskEnv) :
    ∀ (models : List ModelInfo) (idx : ℕ) (acc : List ModelResult) (store : Store),
      (runTasks aid ft envs none models idx acc store).2.2.2 = false ∧
      (runTasks aid ft envs none models idx acc store).2.2.1.length = models.length ∧
      (runTasks aid ft envs none models idx acc store).2.1.results.map (fun r => r.modelName)
        = store.results.map (fun r => r.modelName) ++ models.map (fun m => m.name) ∧
      (runTasks aid ft envs none models idx acc store).2.1.results.map (fun r => r.modelVersion)
        = store.results.map (fun r => r.modelVersion) ++ models.map (fun m => m.version) := by
  intro models
  induction models with
  | nil => intro idx acc store; simp [runTasks]
  | cons m rest ih =>
    intro idx acc store
    have ihh := ih (idx + 1) (acc ++ [simulateModelAnalysis m ft (envs idx)])
      { store with results := store.results ++ [toResultRow aid (simulateModelAnalysis m ft (envs idx))] }
    rcases hr : runTasks aid ft envs none rest (idx + 1)
        (acc ++ [simulateModelAnalysis m ft (envs idx)])
        { store with results := store.results ++ [toResultRow aid (simulateModelAnalysis m ft (envs idx))] }
      with ⟨acc2, store2, snaps, err⟩
    rw [hr] at ihh
    simp only [List.map_append, List.map_cons, List.map_nil] at ihh
    simp only [runTasks, hr]
    rw [if_neg (by simp : ¬ (none : Option ℕ) = some idx)]
    simp only [List.length_cons, List.map_cons]
    refine ⟨ihh.1, by rw [ihh.2.1], ?_, ?_⟩
    · rw [ihh.2.2.1]; simp [toResultRow, simulateModelAnalysis]
    · rw [ihh.2.2.2]; simp [toResultRow, simulateModelAnalysis]

theorem runTasks_some (aid ft : String) (envs : ℕ → TaskEnv) :
    ∀ (models : List ModelInfo) (idx : ℕ) (acc : List ModelResult) (store : Store) (k : ℕ),
      idx ≤ k →
      (runTasks aid ft envs (some k) models idx acc store).2.2.2
        = decide (k < idx + models.length) ∧
      (runTasks aid ft envs (some k) models idx acc store).2.1.results.length
        = store.results.length + min (k - idx) models.length := by
  intro models
  induction models with
  | nil => intro idx acc store k hk; simp [runTasks]; omega
  | cons m rest ih =>
    intro idx acc store k hk
    by_cases h : k = idx
    · subst h
      simp only [runTasks, if_pos rfl]
      constructor
      · simp
      · simp
    · have hk1 : idx + 1 ≤ k := by omega
      have ihh := ih (idx + 1) (acc ++ [simulateModelAnalysis m ft (envs idx)])
        { store with results := store.results ++ [toResultRow aid (simulateModelAnalysis m ft (envs idx))] }
        k hk1
      rcases hr : runTasks aid ft envs (some k) rest (idx + 1)
          (acc ++ [simulateModelAnalysis m ft (envs idx)])
          { store with results := store.results ++ [toResultRow aid (simulateModelAnalysis m ft (envs idx))] }
        with ⟨acc2, store2, snaps, err⟩
      rw [hr] at ihh
      simp only [List.length_append, List.length_singleton] at ihh
      have hne : (some k : Option ℕ) ≠ some idx := by
        intro hc; exact h (Option.some.inj hc)
      simp only [runTasks, hne, ite_false, hr, List.length_cons]
      constructor
      · rw [ihh.1]
        congr 1
        have : (k < idx + 1 + rest.length) ↔ (k < idx + (rest.length + 1)) := by omega
        simp [this]
      · rw [ihh.2]
        omega

theorem round_mono_q {x y : ℚ} (h : x ≤ y) : round x ≤ round y := by
  rw [round_eq, round_eq]
  exact Int.floor_le_floor (by linarith)

theorem round2_within (lo hi : ℤ) (q : ℚ) (hlo : (lo : ℚ) ≤ q * 100)
    (hhi : q * 100 ≤ (hi : ℚ)) :
    (lo : ℚ) / 100 ≤ round2 q ∧ round2 q ≤ (hi : ℚ) / 100 := by
  have h1 : lo ≤ round (q * 100) := by
    have h := round_mono_q hlo
    rwa [round_intCast] at h
  have h2 : round (q * 100) ≤ hi := by
    have h := round_mono_q hhi
    rwa [round_intCast] at h
  have h1q : (lo : ℚ) ≤ (round (q * 100) : ℚ) := by exact_mod_cast h1
  have h2q : ((round (q * 100) : ℤ) : ℚ) ≤ (hi : ℚ) := by exact_mod_cast h2
  unfold round2
  constructor <;> linarith

theorem sum_confidence_bounds :
    ∀ l : List ModelResult,
      (∀ r ∈ l, 0 ≤ r.confidenceScore ∧ r.confidenceScore ≤ 100) →
      0 ≤ (l.map (fun r => r.confidenceScore)).sum ∧
      (l.map (fun r => r.confidenceScore)).sum ≤ 100 * (l.length : ℚ) := by
  intro l
  induction l with
  | nil => intro _; simp
  | cons r rest ih =>
    intro hb
    have h1 := hb r (List.mem_cons_self r rest)
    have h2 := ih (fun x hx => hb x (List.mem_cons_of_mem r hx))
    simp only [List.map_cons, List.sum_cons, List.length_cons]
    push_cast
    constructor <;> linarith [h2.1, h2.2, h1.1, h1.2]

/-- C1: the aggregated overall verdict is the flagged one ("Likely AI
Generated", the code's rendering of the spec's "flagged") exactly when the
number of flagged results strictly exceeds half the number of results, and
the authentic one ("Likely Authentic") otherwise; in particular with 4
results of which exactly 2 are flagged the verdict is the authentic one. -/
theorem c1_overall_verdict_strict_majority (results : List ModelResult) :
    ((computeSummary results).overallVerdict = "Likely AI Generated" ↔
      results.length < 2 * aiGeneratedCount results) ∧
    ((computeSummary results).overallVerdict = "Likely Authentic" ↔
      2 * aiGeneratedCount results ≤ results.length) ∧
    (results.length = 4 → aiGeneratedCount results = 2 →
      (computeSummary results).overallVerdict = "Likely Authentic") := by
  have key : ((results.length : ℚ) / 2 < (aiGeneratedCount results : ℚ)) ↔
      results.length < 2 * aiGeneratedCount results := by
    rw [div_lt_iff₀ (by norm_num : (0 : ℚ) < 2)]
    constructor
    · intro h
      have h2 : (results.length : ℚ) < ((2 * aiGeneratedCount results : ℕ) : ℚ) := by
        push_cast; linarith
      exact_mod_cast h2
    · intro h
      have h2 : (results.length : ℚ) < ((2 * aiGeneratedCount results : ℕ) : ℚ) := by
        exact_mod_cast h
      push_cast at h2; linarith
  have hne : ("Likely AI Generated" : String) ≠ "Likely Authentic" := by decide
  simp only [computeSummary, gt_iff_lt]
  by_cases hc : (results.length : ℚ) / 2 < (aiGeneratedCount results : ℚ)
  · rw [if_pos hc]
    have hlt := key.mp hc
    exact ⟨⟨fun _ => hlt, fun _ => rfl⟩,
      ⟨fun h => absurd h hne, fun h => absurd hlt (by omega)⟩,
      fun h4 h2 => absurd hlt (by omega)⟩
  · rw [if_neg hc]
    have hle : 2 * aiGeneratedCount results ≤ results.length := by
      by_contra hlt
      exact hc (key.mpr (by omega))
    exact ⟨⟨fun h => absurd h hne.symm, fun h => absurd h (by omega)⟩,
      ⟨fun _ => hle, fun _ => rfl⟩, fun _ _ => rfl⟩

/-- C1 witness: on four concrete results of which exactly two are flagged,
the overall verdict is the authentic one. -/
theorem c1_witness : (computeSummary tieResults).overallVerdict = "Likely Authentic" := by
  have h4 : tieResults.length = 4 := by simp [tieResults]
  have ht : (mkResult true).isAiGenerated = true := by
    norm_num [mkResult, simulateModelAnalysis, flaggedEnv]
  have hf : (mkResult false).isAiGenerated = false := by
    norm_num [mkResult, simulateModelAnalysis, defaultEnv]
  have h2 : aiGeneratedCount tieResults = 2 := by
    simp [aiGeneratedCount, tieResults, List.filter, ht, hf]
  exact (c1_overall_verdict_strict_majority tieResults).2.2 h4 h2

/-- C6 counterexample: on the second registry model (specialty
"ai_generated") with an AI-generated draw above one half, the produced
detection type is "ai_generated", which is not among the four values
deepfake, synthetic, authentic, uncertain named by the claim. -/
theorem c6_counterexample :
    (simulateModelAnalysis (AI_MODELS.get ⟨1, by decide⟩) "image" flaggedEnv).detectionType
      = "ai_generated" ∧
    ¬ (simulateModelAnalysis (AI_MODELS.get ⟨1, by decide⟩) "image" flaggedEnv).detectionType ∈
        (["deepfake", "synthetic", "authentic", "uncertain"] : List String) := by
  have hd : (simulateModelAnalysis (AI_MODELS.get ⟨1, by decide⟩) "image" flaggedEnv).detectionType
      = "ai_generated" := by
    have hgen : (1 : ℚ) / 2 < flaggedEnv.genRand := by norm_num [flaggedEnv]
    simp only [simulateModelAnalysis, hgen]
    decide
  refine ⟨hd, ?_⟩
  rw [hd]
  decide

/-- C6 (amended): every task-runner result has a non-empty detection type
drawn from the enum deepfake, ai_generated, authentic, uncertain (the
value the specification calls "synthetic" is spelled "ai_generated" in the
code and schema; the reference runner never produces "uncertain"). -/
theorem c6_detection_type_enum (m : ModelInfo) (ft : String) (env : TaskEnv) :
    (simulateModelAnalysis m ft env).detectionType ≠ "" ∧
    (simulateModelAnalysis m ft env).detectionType ∈
      (["deepfake", "ai_generated", "authentic", "uncertain"] : List String) := by
  unfold simulateModelAnalysis
  by_cases hg : (2 : ℚ)⁻¹ < env.genRand
  · by_cases hs : m.specialty = "deepfake" <;> simp [hg, hs]
  · simp [hg]

/-- C7: for a non-empty result list whose confidences lie in [0,100], the
reported average confidence is the arithmetic mean rounded to two decimal
places, and it lies in [0,100]. -/
theorem c7_average_confidence_mean_bounded (results : List ModelResult)
    (hne : results ≠ [])
    (hb : ∀ r ∈ results, 0 ≤ r.confidenceScore ∧ r.confidenceScore ≤ 100) :
    (computeSummary results).averageConfidence = round2 (averageConfidence results) ∧
    0 ≤ (computeSummary results).averageConfidence ∧
    (computeSummary results).averageConfidence ≤ 100 := by
  have hlen : 0 < (results.length : ℚ) := by
    have h := List.length_pos.mpr hne
    exact_mod_cast h
  have hs := sum_confidence_bounds results hb
  have havg0 : 0 ≤ averageConfidence results := by
    unfold averageConfidence
    exact div_nonneg hs.1 (le_of_lt hlen)
  have havg1 : averageConfidence results ≤ 100 := by
    unfold averageConfidence
    rw [div_le_iff₀ hlen]
    linarith [hs.2]
  have hb2 := round2_within 0 10000 (averageConfidence results)
    (by push_cast; linarith) (by push_cast; linarith)
  have hfe : (computeSummary results).averageConfidence
      = round2 (averageConfidence results) := rfl
  rw [hfe]
  refine ⟨rfl, ?_, ?_⟩
  · have h := hb2.1; norm_num at h; exact h
  · have h := hb2.2; norm_num at h; exact h

/-- C7 witness: a one-element result list with confidence 80 satisfies the
mean formula and the [0,100] bounds. -/
theorem c7_witness :
    (computeSummary [mkResult false]).averageConfidence
      = round2 (averageConfidence [mkResult false]) ∧
    0 ≤ (computeSummary [mkResult false]).averageConfidence ∧
    (computeSummary [mkResult false]).averageConfidence ≤ 100 := by
  have hc : (mkResult false).confidenceScore = round2 ((1 : ℚ) / 2 * 40 + 60) := rfl
  have hbd := round2_within 8000 8000 ((1 : ℚ) / 2 * 40 + 60)
    (by norm_num) (by norm_num)
  refine c7_average_confidence_mean_bounded [mkResult false] (by simp) ?_
  intro r hr
  rw [List.mem_singleton] at hr
  rw [hr, hc]
  norm_num at hbd
  exact ⟨by linarith [hbd.1], by linarith [hbd.2]⟩

/-- C9: every invocation of the reference task runner, with its confidence
draw in [0,1), returns a confidence score in [60,100]. -/
theorem c9_confidence_score_range (m : ModelInfo) (ft : String) (env : TaskEnv)
    (h0 : 0 ≤ env.confRand) (h1 : env.confRand < 1) :
    60 ≤ (simulateModelAnalysis m ft env).confidenceScore ∧
    (simulateModelAnalysis m ft env).confidenceScore ≤ 100 := by
  have hcs : (simulateModelAnalysis m ft env).confidenceScore
      = round2 (env.confRand * 40 + 60) := rfl
  have hb := round2_within 6000 10000 (env.confRand * 40 + 60)
    (by push_cast; nlinarith) (by push_cast; nlinarith)
  rw [hcs]
  norm_num at hb
  exact ⟨hb.1, hb.2⟩

/-- C9 witness: with confidence draw one half the score is in [60,100]. -/
theorem c9_witness :
    60 ≤ (simulateModelAnalysis (AI_MODELS.get ⟨0, by decide⟩) "image" defaultEnv).confidenceScore ∧
    (simulateModelAnalysis (AI_MODELS.get ⟨0, by decide⟩) "image" defaultEnv).confidenceScore ≤ 100 :=
  c9_confidence_score_range _ "image" defaultEnv
    (by norm_num [defaultEnv]) (by norm_num [defaultEnv])

/-- C10: the flag verdict, the detection type and the metadata of a task
result agree: detection type "authentic" exactly when not flagged; when
flagged, detection type "deepfake" exactly when the model's specialty is
"deepfake"; detected artifacts present exactly when flagged and
authenticity markers exactly when not. -/
theorem c10_flag_detection_metadata_agreement (m : ModelInfo) (ft : String) (env : TaskEnv) :
    ((simulateModelAnalysis m ft env).detectionType = "authentic" ↔
      (simulateModelAnalysis m ft env).isAiGenerated = false) ∧
    ((simulateModelAnalysis m ft env).isAiGenerated = true →
      ((simulateModelAnalysis m ft env).detectionType = "deepfake" ↔
        m.specialty = "deepfake")) ∧
    ((simulateModelAnalysis m ft env).metadata.detectedArtifacts.isSome = true ↔
      (simulateModelAnalysis m ft env).isAiGenerated = true) ∧
    ((simulateModelAnalysis m ft env).metadata.authenticityMarkers.isSome = true ↔
      (simulateModelAnalysis m ft env).isAiGenerated = false) := by
  unfold simulateModelAnalysis
  by_cases hg : (2 : ℚ)⁻¹ < env.genRand
  · by_cases hs : m.specialty = "deepfake" <;> simp [hg, hs]
  · simp [hg]

/-- C10 witness: on the deepfake-specialty registry model with a flagged
draw, the detection type is "deepfake". -/
theorem c10_witness :
    (simulateModelAnalysis (AI_MODELS.get ⟨0, by decide⟩) "image" flaggedEnv).detectionType
      = "deepfake" :=
  ((c10_flag_detection_metadata_agreement (AI_MODELS.get ⟨0, by decide⟩) "image" flaggedEnv).2.1
    (by norm_num [simulateModelAnalysis, flaggedEnv])).mpr (by decide)

/-- C4: a start-analysis request with a missing (or empty, hence falsy)
analysisId, fileUrl or fileType yields the 400 "Missing required fields"
response, leaves the store unchanged and performs no persisted writes. -/
theorem c4_missing_fields_no_writes (req : RequestBody) (envs : ℕ → TaskEnv)
    (errAt : Option ℕ) (iso : String) (store : Store)
    (h : truthy req.analysisId = false ∨ truthy req.fileUrl = false ∨
      truthy req.fileType = false) :
    handleRequest req envs errAt iso store
      = (.badRequest "Missing required fields", store, []) := by
  unfold handleRequest
  rcases h with h | h | h <;> simp [h]

/-- C4 witness: a request without a fileType is rejected with 400 and the
store is untouched. -/
theorem c4_witness :
    handleRequest
        { analysisId := some "analysis-1", fileUrl := some "file-url", fileType := none }
        (fun _ => defaultEnv) none "t1" initStore
      = (.badRequest "Missing required fields", initStore, []) :=
  c4_missing_fields_no_writes _ _ _ _ _ (Or.inr (Or.inr rfl))

/-- C2 counterexample: on a valid request whose first task invocation
raises a non-recoverable error, the handler returns the 500 response but
leaves the job at status "processing" with no completedAt; it does not
transition the job to "failed", contrary to the claim. -/
theorem c2_counterexample :
    (handleRequest validReq (fun _ => defaultEnv) (some 0) "t1" initStore).1
      = .serverError "Analysis failed" ∧
    (handleRequest validReq (fun _ => defaultEnv) (some 0) "t1" initStore).2.1.job.status
      = "processing" ∧
    (handleRequest validReq (fun _ => defaultEnv) (some 0) "t1" initStore).2.1.job.completedAt
      = none ∧
    ¬ (handleRequest validReq (fun _ => defaultEnv) (some 0) "t1" initStore).2.1.job.status
      = "failed" := by
  decide

/-- C2 (amended): when a task invocation raises a non-recoverable error
during the run of a valid request, the handler stops issuing further task
invocations and returns the 500 "Analysis failed" response, but performs
no terminal transition: the job stays at status "processing" with no
completedAt, keeping only the results appended before the error, so a job
that enters processing need not reach a terminal status. -/
theorem c2_error_leaves_job_processing (req : RequestBody) (envs : ℕ → TaskEnv)
    (k : ℕ) (iso : String)
    (ha : truthy req.analysisId = true) (hu : truthy req.fileUrl = true)
    (ht : truthy req.fileType = true) (hk : k < AI_MODELS.length) :
    (handleRequest req envs (some k) iso initStore).1 = .serverError "Analysis failed" ∧
    (handleRequest req envs (some k) iso initStore).2.1.job.status = "processing" ∧
    (handleRequest req envs (some k) iso initStore).2.1.job.completedAt = none ∧
    (handleRequest req envs (some k) iso initStore).2.1.results.length = k := by
  unfold handleRequest
  simp only [ha, hu, ht, Bool.and_self, Bool.not_true, Bool.false_eq_true, if_false, initStore]
  rcases hr : runTasks (req.analysisId.getD "") (req.fileType.getD "") envs (some k)
      AI_MODELS 0 [] { job := { status := "processing", completedAt := none }, results := [] }
    with ⟨res, st2, snaps, err⟩
  have hjob := (runTasks_job (req.analysisId.getD "") (req.fileType.getD "") envs (some k)
    AI_MODELS 0 [] { job := { status := "processing", completedAt := none }, results := [] }).1
  have hsome := runTasks_some (req.analysisId.getD "") (req.fileType.getD "") envs
    AI_MODELS 0 [] { job := { status := "processing", completedAt := none }, results := [] } k
    (Nat.zero_le k)
  rw [hr] at hjob hsome
  simp only [] at hjob hsome
  have herr : err = true := by
    rw [hsome.1]
    simp only [decide_eq_true_eq]
    omega
  subst herr
  simp only [hr, if_true]
  refine ⟨trivial, ?_, ?_, ?_⟩
  · rw [hjob]
  · rw [hjob]
  · rw [hsome.2, inf_eq_min]
    simp only [List.length_nil, Nat.zero_add, Nat.sub_zero]
    omega

/-- C2 (amended) witness: with an error injected in the second task
invocation of a valid request, the handler returns 500 and the job stays
at status "processing" with no completedAt and exactly one result. -/
theorem c2_witness :
    (handleRequest validReq (fun _ => defaultEnv) (some 1) "t1" initStore).1
      = .serverError "Analysis failed" ∧
    (handleRequest validReq (fun _ => defaultEnv) (some 1) "t1" initStore).2.1.job.status
      = "processing" ∧
    (handleRequest validReq (fun _ => defaultEnv) (some 1) "t1" initStore).2.1.job.completedAt
      = none ∧
    (handleRequest validReq (fun _ => defaultEnv) (some 1) "t1" initStore).2.1.results.length
      = 1 :=
  c2_error_leaves_job_processing validReq (fun _ => defaultEnv) 1 "t1" rfl rfl rfl (by decide)

/-- C3: in the job's initial state and after every persisted write of any
handler run (any request, any ambient draws, any injected error point),
completedAt is set exactly when the status is completed or failed. -/
theorem c3_completed_at_iff_terminal (req : RequestBody) (envs : ℕ → TaskEnv)
    (errAt : Option ℕ) (iso : String) :
    completedAtInv initStore ∧
    allStores completedAtInv (handleRequest req envs errAt iso initStore).2.2 ∧
    completedAtInv (handleRequest req envs errAt iso initStore).2.1 := by
  have hinit : completedAtInv initStore := by simp [completedAtInv, initStore]
  refine ⟨hinit, ?_⟩
  cases hval : (truthy req.analysisId && truthy req.fileUrl && truthy req.fileType) with
  | false =>
    unfold handleRequest
    simp only [hval, Bool.not_false, if_true]
    exact ⟨trivial, hinit⟩
  | true =>
    have hparts := hval
    simp only [Bool.and_eq_true] at hparts
    obtain ⟨⟨ha, hu⟩, ht⟩ := hparts
    unfold handleRequest
    simp only [ha, hu, ht, Bool.and_self, Bool.not_true, Bool.false_eq_true, if_false, initStore]
    rcases hr : runTasks (req.analysisId.getD "") (req.fileType.getD "") envs errAt
        AI_MODELS 0 [] { job := { status := "processing", completedAt := none }, results := [] }
      with ⟨res, st2, snaps, err⟩
    have hjob := runTasks_job (req.analysisId.getD "") (req.fileType.getD "") envs errAt
      AI_MODELS 0 [] { job := { status := "processing", completedAt := none }, results := [] }
    rw [hr] at hjob
    simp only [] at hjob
    have hproc : ∀ s : Store, s.job = { status := "processing", completedAt := none } →
        completedAtInv s := by
      intro s hs
      simp [completedAtInv, hs]
    cases err with
    | true =>
      simp only [hr, if_true]
      constructor
      · rw [allStores_iff]
        intro s hs
        rcases List.mem_cons.mp hs with hs | hs
        · exact hproc s (by rw [hs])
        · exact hproc s (hjob.2 s hs)
      · exact hproc st2 hjob.1
    | false =>
      simp only [hr, Bool.false_eq_true, if_false]
      have hdone : completedAtInv
          { job := { status := "completed", completedAt := some iso }, results := st2.results } := by
        simp [completedAtInv]
      constructor
      · rw [allStores_iff]
        intro s hs
        rcases List.mem_cons.mp hs with hs | hs
        · exact hproc s (by rw [hs])
        · rcases List.mem_append.mp hs with hs | hs
          · exact hproc s (hjob.2 s hs)
          · rw [List.mem_singleton.mp hs]
            exact hdone
      · exact hdone

/-- C5: during a valid error-free run, the persisted snapshot after
exactly k task completions (position k of the write trace; position 0 is
the processing update) shows exactly k results and status "processing",
for every k up to the registry size. -/
theorem c5_incremental_progress (req : RequestBody) (envs : ℕ → TaskEnv)
    (iso : String) (k : ℕ)
    (ha : truthy req.analysisId = true) (hu : truthy req.fileUrl = true)
    (ht : truthy req.fileType = true) (hk : k ≤ AI_MODELS.length) :
    ∃ s : Store,
      (handleRequest req envs none iso initStore).2.2.get? k = some s ∧
      s.results.length = k ∧ s.job.status = "processing" := by
  unfold handleRequest
  simp only [ha, hu, ht, Bool.and_self, Bool.not_true, Bool.false_eq_true, if_false, initStore]
  rcases hr : runTasks (req.analysisId.getD "") (req.fileType.getD "") envs none
      AI_MODELS 0 [] { job := { status := "processing", completedAt := none }, results := [] }
    with ⟨res, st2, snaps, err⟩
  have hnone := runTasks_none (req.analysisId.getD "") (req.fileType.getD "") envs
    AI_MODELS 0 [] { job := { status := "processing", completedAt := none }, results := [] }
  have hjob := runTasks_job (req.analysisId.getD "") (req.fileType.getD "") envs none
    AI_MODELS 0 [] { job := { status := "processing", completedAt := none }, results := [] }
  rw [hr] at hnone hjob
  simp only [] at hnone hjob
  have herr : err = false := hnone.1
  subst herr
  simp only [hr, Bool.false_eq_true, if_false]
  match k, hk with
  | 0, _ =>
    exact ⟨_, rfl, rfl, rfl⟩
  | j + 1, hk =>
    have hj : j < snaps.length := by
      rw [hnone.2.1]
      omega
    refine ⟨snaps.get ⟨j, hj⟩, ?_, ?_, ?_⟩
    · rw [List.get?_cons_succ, List.get?_append hj, List.get?_eq_get hj]
    · have := runTasks_snaps_get (req.analysisId.getD "") (req.fileType.getD "") envs none
        AI_MODELS 0 [] { job := { status := "processing", completedAt := none }, results := [] }
        j (snaps.get ⟨j, hj⟩) (by rw [hr]; simp only []; exact List.get?_eq_get hj)
      simpa using this
    · have hmem : snaps.get ⟨j, hj⟩ ∈ snaps := List.get_mem snaps j hj
      rw [hjob.2 _ hmem]

/-- C5 witness: in a concrete valid error-free run, the snapshot at
position 2 of the write trace has exactly 2 results and status
"processing". -/
theorem c5_witness :
    ∃ s : Store,
      (handleRequest validReq (fun _ => defaultEnv) none "t1" initStore).2.2.get? 2 = some s ∧
      s.results.length = 2 ∧ s.job.status = "processing" :=
  c5_incremental_progress validReq (fun _ => defaultEnv) "t1" 2 rfl rfl rfl (by decide)

theorem runTasks_success_names (aid ft : String) (envs : ℕ → TaskEnv) (errAt : Option ℕ) :
    ∀ (models : List ModelInfo) (idx : ℕ) (acc : List ModelResult) (store : Store),
      (runTasks aid ft envs errAt models idx acc store).2.2.2 = false →
      (runTasks aid ft envs errAt models idx acc store).2.2.1.length = models.length ∧
      (runTasks aid ft envs errAt models idx acc store).2.1.results.map (fun r => r.modelName)
        = store.results.map (fun r => r.modelName) ++ models.map (fun m => m.name) ∧
      (runTasks aid ft envs errAt models idx acc store).2.1.results.map (fun r => r.modelVersion)
        = store.results.map (fun r => r.modelVersion) ++ models.map (fun m => m.version) := by
  intro models
  induction models with
  | nil => intro idx acc store _; simp [runTasks]
  | cons m rest ih =>
    intro idx acc store hok
    by_cases h : errAt = some idx
    · simp [runTasks, h] at hok
    · have hok2 : (runTasks aid ft envs errAt rest (idx + 1)
          (acc ++ [simulateModelAnalysis m ft (envs idx)])
          { store with results := store.results ++ [toResultRow aid (simulateModelAnalysis m ft (envs idx))] }).2.2.2 = false := by
        rcases hq : runTasks aid ft envs errAt rest (idx + 1)
            (acc ++ [simulateModelAnalysis m ft (envs idx)])
            { store with results := store.results ++ [toResultRow aid (simulateModelAnalysis m ft (envs idx))] }
          with ⟨acc2, store2, snaps, err⟩
        simp only [runTasks, h, ite_false, hq] at hok
        simpa using hok
      have ihh := ih (idx + 1) (acc ++ [simulateModelAnalysis m ft (envs idx)])
        { store with results := store.results ++ [toResultRow aid (simulateModelAnalysis m ft (envs idx))] }
        hok2
      rcases hq : runTasks aid ft envs errAt rest (idx + 1)
          (acc ++ [simulateModelAnalysis m ft (envs idx)])
          { store with results := store.results ++ [toResultRow aid (simulateModelAnalysis m ft (envs idx))] }
        with ⟨acc2, store2, snaps, err⟩
      rw [hq] at ihh
      simp only [List.map_append, List.map_cons, List.map_nil] at ihh
      simp only [runTasks, hq]
      rw [if_neg h]
      simp only [List.length_cons, List.map_cons]
      refine ⟨by rw [ihh.1], ?_, ?_⟩
      · rw [ihh.2.1]; simp [toResultRow, simulateModelAnalysis]
      · rw [ihh.2.2]; simp [toResultRow, simulateModelAnalysis]

/-- C8: the registry has 4 entries; for every handler run, if the final
job status is "completed" then the persisted results correspond
one-to-one, in order, to the registry entries (so their number equals the
registry size), and in the final state and every persisted snapshot the
result count never exceeds the registry size. -/
theorem c8_completed_results_match_registry (req : RequestBody) (envs : ℕ → TaskEnv)
    (errAt : Option ℕ) (iso : String) :
    AI_MODELS.length = 4 ∧
    ((handleRequest req envs errAt iso initStore).2.1.job.status = "completed" →
      (handleRequest req envs errAt iso initStore).2.1.results.length = AI_MODELS.length ∧
      (handleRequest req envs errAt iso initStore).2.1.results.map (fun r => r.modelName)
        = AI_MODELS.map (fun m => m.name) ∧
      (handleRequest req envs errAt iso initStore).2.1.results.map (fun r => r.modelVersion)
        = AI_MODELS.map (fun m => m.version)) ∧
    (handleRequest req envs errAt iso initStore).2.1.results.length ≤ AI_MODELS.length ∧
    allStores (fun s => s.results.length ≤ AI_MODELS.length)
      (handleRequest req envs errAt iso initStore).2.2 := by
  refine ⟨rfl, ?_⟩
  cases hval : (truthy req.analysisId && truthy req.fileUrl && truthy req.fileType) with
  | false =>
    unfold handleRequest
    simp only [hval, Bool.not_false, if_true]
    refine ⟨?_, ?_, trivial⟩
    · intro h
      simp [initStore] at h
    · simp [initStore]
  | true =>
    have hparts := hval
    simp only [Bool.and_eq_true] at hparts
    obtain ⟨⟨ha, hu⟩, ht⟩ := hparts
    unfold handleRequest
    simp only [ha, hu, ht, Bool.and_self, Bool.not_true, Bool.false_eq_true, if_false, initStore]
    rcases hr : runTasks (req.analysisId.getD "") (req.fileType.getD "") envs errAt
        AI_MODELS 0 [] { job := { status := "processing", completedAt := none }, results := [] }
      with ⟨res, st2, snaps, err⟩
    have hjob := runTasks_job (req.analysisId.getD "") (req.fileType.getD "") envs errAt
      AI_MODELS 0 [] { job := { status := "processing", completedAt := none }, results := [] }
    have hlen := runTasks_len (req.analysisId.getD "") (req.fileType.getD "") envs errAt
      AI_MODELS 0 [] { job := { status := "processing", completedAt := none }, results := [] }
    rw [hr] at hjob hlen
    simp only [] at hjob hlen
    simp only [List.length_nil, Nat.zero_add] at hlen
    have hsnapbound : ∀ s ∈ snaps, s.results.length ≤ AI_MODELS.length := by
      intro s hs
      rcases List.mem_iff_get?.mp hs with ⟨j, hj⟩
      have hjlt : j < snaps.length := by
        rcases List.get?_eq_some.mp hj with ⟨hlt, _⟩
        exact hlt
      have := runTasks_snaps_get (req.analysisId.getD "") (req.fileType.getD "") envs errAt
        AI_MODELS 0 [] { job := { status := "processing", completedAt := none }, results := [] }
        j s (by rw [hr]; simp only []; exact hj)
      simp only [List.length_nil, Nat.zero_add] at this
      omega
    cases err with
    | true =>
      simp only [hr, if_true]
      refine ⟨?_, ?_, ?_⟩
      · intro h
        rw [hjob.1] at h
        simp at h
      · omega
      · rw [allStores_iff]
        intro s hs
        rcases List.mem_cons.mp hs with hs | hs
        · rw [hs]
          simp
        · exact hsnapbound s hs
    | false =>
      simp only [hr, Bool.false_eq_true, if_false]
      have hsn := runTasks_success_names (req.analysisId.getD "") (req.fileType.getD "") envs errAt
        AI_MODELS 0 [] { job := { status := "processing", completedAt := none }, results := [] }
        (by rw [hr])
      rw [hr] at hsn
      simp only [List.map_nil, List.nil_append] at hsn
      have hflen : st2.results.length = AI_MODELS.length := by
        have h1 : (st2.results.map (fun r => r.modelName)).length
            = (AI_MODELS.map (fun m => m.name)).length := by rw [hsn.2.1]
        simpa using h1
      refine ⟨?_, ?_, ?_⟩
      · intro _
        exact ⟨hflen, hsn.2.1, hsn.2.2⟩
      · exact le_of_eq hflen
      · rw [allStores_iff]
        intro s hs
        rcases List.mem_cons.mp hs with hs | hs
        · rw [hs]
          simp
        · rcases List.mem_append.mp hs with hs | hs
          · exact hsnapbound s hs
          · rw [List.mem_singleton.mp hs]
            exact le_of_eq hflen

/-- C8 witness: a concrete valid error-free run ends "completed" with one
result per registry entry, in registry order. -/
theorem c8_witness :
    (handleRequest validReq (fun _ => defaultEnv) none "t1" initStore).2.1.results.length
      = AI_MODELS.length ∧
    (handleRequest validReq (fun _ => defaultEnv) none "t1" initStore).2.1.results.map
        (fun r => r.modelName) = AI_MODELS.map (fun m => m.name) ∧
    (handleRequest validReq (fun _ => defaultEnv) none "t1" initStore).2.1.results.map
        (fun r => r.modelVersion) = AI_MODELS.map (fun m => m.version) :=
  (c8_completed_results_match_registry validReq (fun _ => defaultEnv) none "t1").2.1 rfl
